import Mathlib

/-!
Shallow embedding of the nano-gpu-scheduler dealer core
(`pkg/dealer/dealer.go`) together with the extender filter handler
(`pkg/scheduler/...` Predicate.Handler).  The node engine, demand/plan
parsing and rater live in repository files that are not part of this
tree; those definitions are modelled from the specification and are
marked as such in their doc comments.  Kubernetes API calls (listers,
pod update, binding creation) are modelled as explicit environments.
-/

namespace NanoGPU

/-- Association-list lookup, mirroring Go map indexing `m[k]`. -/
def lookupA {α : Type} : List (String × α) → String → Option α
  | [], _ => none
  | (k, v) :: rest, key => if k = key then some v else lookupA rest key

/-- Association-list update, mirroring Go map assignment `m[k] = v`
(replaces the binding if the key is present, otherwise appends). -/
def insertA {α : Type} : List (String × α) → String → α → List (String × α)
  | [], key, v => [(key, v)]
  | (k, w) :: rest, key, v =>
    if k = key then (k, v) :: rest else (k, w) :: insertA rest key v

/-- Association-list removal, mirroring Go `delete(m, k)`. -/
def eraseA {α : Type} (l : List (String × α)) (key : String) : List (String × α) :=
  l.filter (fun kv => kv.1 ≠ key)

/-- Set insertion for the released-pod tombstone set
(`d.ReleasedPodMap[uid] = struct{}{}`). -/
def insertSet (l : List String) (key : String) : List String :=
  if key ∈ l then l else key :: l

/-- Set removal (`delete(d.ReleasedPodMap, uid)`). -/
def eraseSet (l : List String) (key : String) : List String :=
  l.filter (fun k => k ≠ key)

/-- Modelled from the spec (§3 Demand): one GPU-bearing container request,
a core percentage and a memory request in MiB. -/
structure ContainerRequest where
  core : Int
  memory : Int
  deriving DecidableEq

/-- Modelled from the spec (§3 Demand): the ordered GPU requests of a pod. -/
def Demand : Type := List ContainerRequest

instance : DecidableEq Demand := by
  unfold Demand
  infer_instance

/-- Modelled from the spec (§3 Plan): chosen GPU indices, one per
GPU-bearing container, together with the demand they serve (the Go
`Plan` carries both, since `NodeInfo.Allocate`/`Release` take only a plan). -/
structure Plan where
  gpuIndexes : List Nat
  demand : Demand
  deriving DecidableEq

/-- Modelled from the spec (§3 GPU): capacity and committed usage of one card. -/
structure GPU where
  coreTotal : Int
  memTotal : Int
  coreUsed : Int
  memUsed : Int
  deriving DecidableEq

/-- Modelled from the spec (§3 NodeInfo): one node's cards plus the
tentative (assumed, not yet bound) plan recorded by `Assume`. -/
structure NodeInfo where
  name : String
  gpus : List GPU
  tentative : Option (Demand × List Nat)
  deriving DecidableEq

/-- The pod data the dealer consults: UID, namespace/name, the node it is
scheduled to, raw container requests, and the parsed GPU-index annotation
(`none` models a missing or unparseable annotation). -/
structure Pod where
  uid : String
  ns : String
  name : String
  nodeName : String
  containers : List ContainerRequest
  annoIndexes : Option (List Nat)
  deriving DecidableEq

/-- The cluster environment consulted by the dealer: node capacities as
seen by the node lister (name to per-card (coreTotal, memTotal)), and the
GPUAssume-labelled pods the pod-list API reports per node.  A missing
entry models an API error. -/
structure Cluster where
  nodes : List (String × List (Int × Int))
  podsOn : List (String × List Pod)
  deriving DecidableEq

/-- `DealerImpl`'s mutable state: `PodMaps`, `NodeMaps`, `ReleasedPodMap`
(the metric caches `CoreUsage`/`MemoryUsage` are not touched by any claim
and are omitted). -/
structure DealerState where
  podMaps : List (String × Pod)
  nodeMaps : List (String × NodeInfo)
  releasedPodMap : List String
  deriving DecidableEq

/-- The empty state `NewDealer` starts from. -/
def initialState : DealerState := ⟨[], [], []⟩

/-- Scoring policy (`--priority`), a tagged variant per the spec (§9). -/
inductive PolicySpec where
  | binpack
  | spread
  deriving DecidableEq

/-- Extender score floor (spec §4.3: scores clamped to [0, 10]). -/
def ScoreMin : Int := 0

/-- Extender score ceiling (spec §4.3). -/
def ScoreMax : Int := 10

/-- `dealer.go` line 21. -/
def OptimisticLockErrorMsg : String :=
  "the object has been modified; please apply your changes to the latest version and try again"

/-- Modelled from the spec (§4.1): a container is GPU-bearing iff it
declares a core request in 1..100 and a positive memory request. -/
def gpuBearing (c : ContainerRequest) : Bool :=
  1 ≤ c.core && c.core ≤ 100 && 0 < c.memory

/-- Modelled from the spec (§4.1 `NewDemandFromPod`): the ordered
sequence of GPU-bearing container requests. -/
def newDemandFromPod (p : Pod) : Demand :=
  p.containers.filter gpuBearing

/-- Modelled from the spec (§4.1 `NewPlanFromPod`): reconstruct a plan
from the pod's annotation; fails when the annotation is absent or its
index count does not match the demand. -/
def newPlanFromPod (p : Pod) : Except String Plan :=
  let d := newDemandFromPod p
  match p.annoIndexes with
  | none => Except.error "malformed plan: missing gpu index annotation"
  | some idxs =>
    if idxs.length = d.length then Except.ok ⟨idxs, d⟩
    else Except.error "malformed plan: index count mismatch"

/-- Models `utils.GetUpdatedPodAnnotationSpec`: stamp the chosen GPU
indices into the pod's annotation. -/
def withAnnoIndexes (p : Pod) (idxs : List Nat) : Pod :=
  { p with annoIndexes := some idxs }

/-- Modelled from the spec (§4.2 single-GPU fit test): (c, m) fits on g
iff the residual core and memory capacities cover the request. -/
def fits (c : ContainerRequest) (g : GPU) : Bool :=
  c.core ≤ g.coreTotal - g.coreUsed && c.memory ≤ g.memTotal - g.memUsed

/-- Modelled from the spec (§4.2 Commit): add a container request to the
committed totals of the card at the given index. -/
def commitAt : List GPU → Nat → ContainerRequest → List GPU
  | [], _, _ => []
  | g :: gs, 0, c =>
    { g with coreUsed := g.coreUsed + c.core, memUsed := g.memUsed + c.memory } :: gs
  | g :: gs, Nat.succ n, c => g :: commitAt gs n c

/-- Modelled from the spec (§4.2 Revert): subtract a container request
from the committed totals of the card at the given index. -/
def revertAt : List GPU → Nat → ContainerRequest → List GPU
  | [], _, _ => []
  | g :: gs, 0, c =>
    { g with coreUsed := g.coreUsed - c.core, memUsed := g.memUsed - c.memory } :: gs
  | g :: gs, Nat.succ n, c => g :: revertAt gs n c

/-- Commit a whole (request, card-index) list in order. -/
def commitAll (gpus : List GPU) (pairs : List (ContainerRequest × Nat)) : List GPU :=
  pairs.foldl (fun gs ci => commitAt gs ci.2 ci.1) gpus

/-- Revert a whole (request, card-index) list in order. -/
def revertAll (gpus : List GPU) (pairs : List (ContainerRequest × Nat)) : List GPU :=
  pairs.foldl (fun gs ci => revertAt gs ci.2 ci.1) gpus

/-- Modelled from the spec (§4.2 tentative plan): greedy per-container
placement with cumulative commits; each container takes the first card it
fits on (rater tie-break abstracted to the lowest index, spec S1); a
container with no fitting card fails the whole fit, leaving the caller's
card list untouched (transactional rollback). -/
def planFit : Demand → List GPU → Option (List Nat × List GPU)
  | [], gs => some ([], gs)
  | c :: ds, gs =>
    match gs.findIdx? (fits c) with
    | none => none
    | some i =>
      match planFit ds (commitAt gs i c) with
      | none => none
      | some (is, gs2) => some (i :: is, gs2)

/-- Modelled from the spec (§4.2 step 3 / §4.4): drop the node's recorded
tentative plan, reverting its commits. -/
def cleanPlan (ni : NodeInfo) : NodeInfo :=
  match ni.tentative with
  | none => ni
  | some (d, p) => { ni with gpus := revertAll ni.gpus (d.zip p), tentative := none }

/-- Modelled from the spec (§4.4 node `Assume`): run fit, commit the
counters and record the tentative plan; on failure report a reason and
leave the node unchanged. -/
def nodeAssume (_pol : PolicySpec) (_la : Bool) (d : Demand) (ni : NodeInfo) :
    Except String NodeInfo :=
  match planFit d ni.gpus with
  | none => Except.error "gpu core/memory insufficient"
  | some (p, gs) => Except.ok { ni with gpus := gs, tentative := some (d, p) }

/-- Modelled from the spec (§4.4 node `Bind`): promote the tentative plan
to a bound plan; with no tentative plan recorded, fit afresh. -/
def nodeBind (_pol : PolicySpec) (_la : Bool) (d : Demand) (ni : NodeInfo) :
    Except String (Plan × NodeInfo) :=
  match ni.tentative with
  | some (d0, p) => Except.ok (⟨p, d0⟩, { ni with tentative := none })
  | none =>
    match planFit d ni.gpus with
    | none => Except.error "gpu core/memory insufficient"
    | some (p, gs) => Except.ok (⟨p, d⟩, { ni with gpus := gs, tentative := none })

/-- Modelled from the spec (§4.4 node `Allocate`): commit the counters of
an already-decided plan; reject card indices outside the node. -/
def nodeAllocate (ni : NodeInfo) (plan : Plan) : Option NodeInfo :=
  if plan.gpuIndexes.all (fun i => i < ni.gpus.length) then
    some { ni with gpus := commitAll ni.gpus (plan.demand.zip plan.gpuIndexes) }
  else none

/-- Modelled from the spec (§4.4 node `Release`): subtract the counters
of a plan; reject card indices outside the node. -/
def nodeRelease (ni : NodeInfo) (plan : Plan) : Option NodeInfo :=
  if plan.gpuIndexes.all (fun i => i < ni.gpus.length) then
    some { ni with gpus := revertAll ni.gpus (plan.demand.zip plan.gpuIndexes) }
  else none

/-- Modelled from the spec (§4.3): per-node score; `ScoreMin` when the
demand does not fit; otherwise a policy score clamped to
[`ScoreMin`, `ScoreMax`] (the exact per-GPU formula is not given by the
spec; only the clamp and the fit-failure floor matter to the claims). -/
def nodeScore (pol : PolicySpec) (_la : Bool) (d : Demand) (ni : NodeInfo) : Int :=
  match planFit d ni.gpus with
  | none => ScoreMin
  | some (_, gs) =>
    let used := gs.foldl (fun a g => a + g.coreUsed) 0
    let cap := gs.foldl (fun a g => a + g.coreTotal) 0
    if cap = 0 then ScoreMin
    else
      let packed := used * ScoreMax / cap
      match pol with
      | .binpack => min ScoreMax (max ScoreMin packed)
      | .spread => min ScoreMax (max ScoreMin (ScoreMax - packed))

/-- Modelled from the spec (§3 NodeInfo lifecycle): a freshly seeded
node, cards built from the cluster's capacity view with zero commits. -/
def newNodeInfo (name : String) (caps : List (Int × Int)) : NodeInfo :=
  ⟨name, caps.map (fun c => ⟨c.1, c.2, 0, 0⟩), none⟩

/-- The seeding loop of `DealerImpl.getNodeInfo` (dealer.go 287-299):
replay every labelled pod on the node; per-pod failures are skipped;
successful pods are recorded for `PodMaps`. -/
def seedPods : NodeInfo → List Pod → NodeInfo × List (String × Pod)
  | ni, [] => (ni, [])
  | ni, p :: ps =>
    match newPlanFromPod p with
    | Except.error _ => seedPods ni ps
    | Except.ok plan =>
      match nodeAllocate ni plan with
      | none => seedPods ni ps
      | some ni2 =>
        let (nf, rest) := seedPods ni2 ps
        (nf, (p.uid, p) :: rest)

/-- `DealerImpl.getNodeInfo` (dealer.go 271-301): return the cached
`NodeInfo`, or resolve the node, seed it from the labelled pods currently
on it, cache it and record the replayed pods in `PodMaps`. -/
def getNodeInfo (env : Cluster) (s : DealerState) (name : String) :
    Except String NodeInfo × DealerState :=
  match lookupA s.nodeMaps name with
  | some ni => (Except.ok ni, s)
  | none =>
    match lookupA env.nodes name with
    | none => (Except.error "node not found", s)
    | some caps =>
      match lookupA env.podsOn name with
      | none => (Except.error "list pods failed", s)
      | some pods =>
        let seeded := seedPods (newNodeInfo name caps) pods
        (Except.ok seeded.1,
          { s with
            nodeMaps := insertA s.nodeMaps name seeded.1,
            podMaps := seeded.2.foldl (fun m kv => insertA m kv.1 kv.2) s.podMaps })

/-- Result of `DealerImpl.Assume`: the per-node admission vector, the
per-node errors, and the dealer state after the call. -/
structure AssumeOut where
  ans : List Bool
  errs : List (Option String)
  state : DealerState

/-- Phase 1 of `DealerImpl.Assume` (dealer.go 97-105): resolve (and
lazily seed) every candidate node in order; a resolution failure marks
the slot failed with an error, a success leaves the slot pending. -/
def resolveNodes (env : Cluster) : DealerState → List String → List (Bool × Option String) × DealerState
  | s, [] => ([], s)
  | s, n :: ns =>
    match getNodeInfo env s n with
    | (Except.error e, s1) =>
      let rest := resolveNodes env s1 ns
      ((false, some ("nano gpu scheduler get node failed: " ++ e)) :: rest.1, rest.2)
    | (Except.ok _, s1) =>
      let rest := resolveNodes env s1 ns
      ((true, none) :: rest.1, rest.2)

/-- Phase 2 of `DealerImpl.Assume` (dealer.go 107-134): for every slot
whose node resolved, clear the node's previous tentative plan and run the
node-level assume, writing the updated node back.  The Go fan-out runs
the slots on four workers that touch disjoint nodes; it is embedded as
the sequential schedule over the slot list. -/
def assumeNodes (d : Demand) (pol : PolicySpec) (la : Bool) :
    DealerState → List (String × Bool × Option String) → List (Bool × Option String) × DealerState
  | s, [] => ([], s)
  | s, (n, ok, e) :: rest =>
    if ok then
      match lookupA s.nodeMaps n with
      | none =>
        -- unreachable: a resolved slot always has its node cached
        let r := assumeNodes d pol la s rest
        ((false, some "node info missing") :: r.1, r.2)
      | some ni =>
        let ni1 := cleanPlan ni
        match nodeAssume pol la d ni1 with
        | Except.error msg =>
          let s1 := { s with nodeMaps := insertA s.nodeMaps n ni1 }
          let r := assumeNodes d pol la s1 rest
          ((false, some msg) :: r.1, r.2)
        | Except.ok ni2 =>
          let s1 := { s with nodeMaps := insertA s.nodeMaps n ni2 }
          let r := assumeNodes d pol la s1 rest
          ((true, none) :: r.1, r.2)
    else
      let r := assumeNodes d pol la s rest
      ((false, e) :: r.1, r.2)

/-- `DealerImpl.Assume` (dealer.go 89-136). -/
def dealerAssume (env : Cluster) (s : DealerState) (nodes : List String) (pod : Pod)
    (pol : PolicySpec) (la : Bool) : AssumeOut :=
  let d := newDemandFromPod pod
  let ph1 := resolveNodes env s nodes
  let ph2 := assumeNodes d pol la ph1.2 (nodes.zip ph1.1)
  { ans := ph2.1.map Prod.fst, errs := ph2.1.map Prod.snd, state := ph2.2 }

/-- `DealerImpl.Score` (dealer.go 138-153): sequential per node; a node
that fails to resolve scores `ScoreMin`. -/
def dealerScore (env : Cluster) : DealerState → List String → Pod → PolicySpec → Bool → List Int × DealerState
  | s, [], _, _, _ => ([], s)
  | s, n :: ns, pod, pol, la =>
    match getNodeInfo env s n with
    | (Except.error _, s1) =>
      let rest := dealerScore env s1 ns pod pol la
      (ScoreMin :: rest.1, rest.2)
    | (Except.ok ni, s1) =>
      let rest := dealerScore env s1 ns pod pol la
      (nodeScore pol la (newDemandFromPod pod) ni :: rest.1, rest.2)

/-- The cluster-API behaviour `Bind` runs against: the outcome of the
k-th pod-annotation `Update` call (`none` = success, `some msg` = error
with that message), of the pod re-`Get`, and of the `Binding` creation. -/
structure ApiBehavior where
  update : Nat → Option String
  getResult : Except String Pod
  bindResult : Option String

/-- `DealerImpl.Bind` (dealer.go 155-203).  Mirrors the source exactly,
including the branch that swallows a non-conflict `Update` error by
returning nil (line 188). -/
def dealerBind (env : Cluster) (api : ApiBehavior) (s : DealerState) (node : String)
    (pod : Pod) (pol : PolicySpec) (la : Bool) : Option String × DealerState :=
  match getNodeInfo env s node with
  | (Except.error e, s1) => (some e, s1)
  | (Except.ok ni, s1) =>
    match lookupA env.nodes ni.name with
    | none => (some "node lister get failed", s1)
    | some _ =>
      match nodeBind pol la (newDemandFromPod pod) ni with
      | Except.error e => (some e, s1)
      | Except.ok (plan, ni2) =>
        let s2 := { s1 with nodeMaps := insertA s1.nodeMaps ni.name ni2 }
        let newPod := withAnnoIndexes pod plan.gpuIndexes
        let issueBinding := fun (boundPod recordedPod : Pod) =>
          match api.bindResult with
          | some e => (some e, s2)
          | none =>
            (none, { s2 with podMaps := insertA s2.podMaps recordedPod.uid boundPod })
        match api.update 0 with
        | none => issueBinding newPod pod
        | some msg =>
          if msg = OptimisticLockErrorMsg then
            match api.getResult with
            | Except.error e => (some e, s2)
            | Except.ok pod2 =>
              let newPod2 := withAnnoIndexes pod2 plan.gpuIndexes
              match api.update 1 with
              | some e => (some e, s2)
              | none => issueBinding newPod2 pod2
          else
            -- source slip (dealer.go 188): the non-conflict Update error
            -- is dropped and Bind reports success without binding
            (none, s2)

/-- `DealerImpl.Allocate` (dealer.go 205-228). -/
def dealerAllocate (env : Cluster) (s : DealerState) (pod : Pod) :
    Option String × DealerState :=
  if pod.nodeName = "" then (some "pod nodename is empty", s)
  else
    match getNodeInfo env s pod.nodeName with
    | (Except.error e, s1) => (some e, s1)
    | (Except.ok ni, s1) =>
      match lookupA s1.podMaps pod.uid with
      | some _ => (none, s1)
      | none =>
        match newPlanFromPod pod with
        | Except.error e => (some e, s1)
        | Except.ok plan =>
          match nodeAllocate ni plan with
          | none => (some "allocate failed", s1)
          | some ni2 =>
            (none, { s1 with
              nodeMaps := insertA s1.nodeMaps pod.nodeName ni2,
              podMaps := insertA s1.podMaps pod.uid pod })

/-- `DealerImpl.Release` (dealer.go 230-255). -/
def dealerRelease (env : Cluster) (s : DealerState) (pod : Pod) :
    Option String × DealerState :=
  match getNodeInfo env s pod.nodeName with
  | (Except.error e, s1) => (some e, s1)
  | (Except.ok ni, s1) =>
    match lookupA s1.podMaps pod.uid with
    | none => (none, s1)
    | some _ =>
      match newPlanFromPod pod with
      | Except.error e => (some e, s1)
      | Except.ok plan =>
        match nodeRelease ni plan with
        | none => (some "release failed", s1)
        | some ni2 =>
          (none, { s1 with
            nodeMaps := insertA s1.nodeMaps pod.nodeName ni2,
            podMaps := eraseA s1.podMaps pod.uid,
            releasedPodMap := insertSet s1.releasedPodMap pod.uid })

/-- `DealerImpl.Forget` (dealer.go 311-319). -/
def dealerForget (s : DealerState) (pod : Pod) : Option String × DealerState :=
  (none, { s with
    podMaps := eraseA s.podMaps pod.uid,
    releasedPodMap := eraseSet s.releasedPodMap pod.uid })

/-- `DealerImpl.KnownPod` (dealer.go 257-262). -/
def knownPod (s : DealerState) (pod : Pod) : Bool :=
  (lookupA s.podMaps pod.uid).isSome

/-- `DealerImpl.PodReleased` (dealer.go 264-269). -/
def podReleased (s : DealerState) (pod : Pod) : Bool :=
  pod.uid ∈ s.releasedPodMap

/-- One public dealer operation, for stating reachability. -/
inductive DealerOp where
  | assumeOp (nodes : List String) (pod : Pod) (pol : PolicySpec) (la : Bool)
  | bindOp (api : ApiBehavior) (node : String) (pod : Pod) (pol : PolicySpec) (la : Bool)
  | allocateOp (pod : Pod)
  | releaseOp (pod : Pod)
  | forgetOp (pod : Pod)

/-- Apply one dealer operation to the state (return values dropped). -/
def applyOp (env : Cluster) (s : DealerState) : DealerOp → DealerState
  | .assumeOp ns p pol la => (dealerAssume env s ns p pol la).state
  | .bindOp api n p pol la => (dealerBind env api s n p pol la).2
  | .allocateOp p => (dealerAllocate env s p).2
  | .releaseOp p => (dealerRelease env s p).2
  | .forgetOp p => (dealerForget s p).2

/-- Run a sequence of dealer operations. -/
def runOps (env : Cluster) (s : DealerState) : List DealerOp → DealerState
  | [] => s
  | op :: ops => runOps env (applyOp env s op) ops

/-- The extender filter result (`ExtenderFilterResult`): passing node
names, failed node names with reasons, and the global error string. -/
structure FilterResult where
  nodeNames : List String
  failedNodes : List (String × String)
  error : String

/-- The result-assembly loop of `Predicate.Handler`
(pkg/scheduler part_000, lines 26-32), with its two accumulators. -/
def buildFilter (acc1 : List String) (acc2 : List (String × String)) :
    List (String × Bool × Option String) → List String × List (String × String)
  | [] => (acc1, acc2)
  | (n, ok, e) :: rest =>
    if ok then buildFilter (acc1 ++ [n]) acc2 rest
    else buildFilter acc1 (insertA acc2 n (e.getD "")) rest

/-- `Predicate.Handler` (pkg/scheduler part_000, lines 19-41) over the
dealer's `Assume`: partition the candidates and always leave the global
`Error` empty. -/
def predicateHandler (env : Cluster) (s : DealerState) (pod : Pod) (nodeNames : List String)
    (pol : PolicySpec) (la : Bool) : FilterResult × DealerState :=
  let out := dealerAssume env s nodeNames pod pol la
  let acc := buildFilter [] [] (nodeNames.zip (out.ans.zip out.errs))
  ({ nodeNames := acc.1, failedNodes := acc.2, error := "" }, out.state)

/-! ### Concrete fixtures used by counterexamples and witnesses -/

/-- A cluster with one node `n1` carrying a single (100 core, 16384 MiB)
card and no labelled pods to replay. -/
def envEx : Cluster := ⟨[("n1", [(100, 16384)])], [("n1", [])]⟩

/-- A one-container (30 core, 4096 MiB) pod on `n1` whose annotation
already names card 0. -/
def podEx1 : Pod := ⟨"u1", "default", "p1", "n1", [⟨30, 4096⟩], some [0]⟩

/-- An API behaviour whose pod-update call always fails with an error
that is not the optimistic-concurrency conflict message. -/
def apiSwallow : ApiBehavior :=
  ⟨fun _ => some "etcd write failed", Except.error "unused", some "unused"⟩

/-- The passing names of a (name, ok, err) slot list, in order. -/
def passingOf (l : List (String × Bool × Option String)) : List String :=
  l.filterMap (fun p => if p.2.1 then some p.1 else none)

/-- The failed (name, reason) pairs of a (name, ok, err) slot list, in order. -/
def failingOf (l : List (String × Bool × Option String)) : List (String × String) :=
  l.filterMap (fun p => if p.2.1 then none else some (p.1, p.2.2.getD ""))

/-! ### Association-list lemmas -/

theorem lookupA_insertA_self {α : Type} (l : List (String × α)) (k : String) (v : α) :
    lookupA (insertA l k v) k = some v := by
  induction l with
  | nil => simp [insertA, lookupA]
  | cons hd tl ih =>
    by_cases h : hd.1 = k
    · simp [insertA, lookupA, h]
    · simp [insertA, lookupA, h, ih]

theorem lookupA_insertA_ne {α : Type} (l : List (String × α)) (k k' : String) (v : α)
    (h : k ≠ k') : lookupA (insertA l k v) k' = lookupA l k' := by
  induction l with
  | nil => simp [insertA, lookupA, h]
  | cons hd tl ih =>
    by_cases hh : hd.1 = k
    · simp [insertA, lookupA, hh, h]
    · simp [insertA, lookupA, hh, ih]

theorem lookupA_eraseA_self {α : Type} (l : List (String × α)) (k : String) :
    lookupA (eraseA l k) k = none := by
  induction l with
  | nil => simp [eraseA, lookupA]
  | cons hd tl ih =>
    by_cases h : hd.1 = k
    · simpa [eraseA, lookupA, h] using ih
    · simpa [eraseA, lookupA, h] using ih

theorem eraseA_idem {α : Type} (l : List (String × α)) (k : String) :
    eraseA (eraseA l k) k = eraseA l k := by
  simp [eraseA, List.filter_filter]

theorem not_mem_eraseSet_self (l : List String) (k : String) :
    k ∉ eraseSet l k := by
  simp [eraseSet, List.mem_filter]

theorem eraseSet_idem (l : List String) (k : String) :
    eraseSet (eraseSet l k) k = eraseSet l k := by
  simp [eraseSet, List.filter_filter]

/-! ### getNodeInfo lemmas -/

theorem getNodeInfo_ok_lookup (env : Cluster) (s : DealerState) (name : String)
    (ni : NodeInfo) (s1 : DealerState)
    (h : getNodeInfo env s name = (Except.ok ni, s1)) :
    lookupA s1.nodeMaps name = some ni := by
  unfold getNodeInfo at h
  split at h
  · rename_i ni0 hl
    simp only [Prod.mk.injEq, Except.ok.injEq] at h
    obtain ⟨h1, h2⟩ := h
    subst h1; subst h2
    exact hl
  · rename_i hl
    split at h
    · simp at h
    · split at h
      · simp at h
      · simp only [Prod.mk.injEq, Except.ok.injEq] at h
        obtain ⟨h1, h2⟩ := h
        subst h2
        simp [← h1, lookupA_insertA_self]

/-! ### Claim theorems -/

/-- Claim C6: `Forget` always returns nil, removes the pod's UID from
both `PodMaps` and `ReleasedPodMap`, and applying it twice yields the
same state as applying it once. -/
theorem forget_clears_both_and_idempotent (s : DealerState) (pod : Pod) :
    (dealerForget s pod).1 = none ∧
    lookupA (dealerForget s pod).2.podMaps pod.uid = none ∧
    pod.uid ∉ (dealerForget s pod).2.releasedPodMap ∧
    dealerForget (dealerForget s pod).2 pod = dealerForget s pod := by
  refine ⟨rfl, ?_, ?_, ?_⟩
  · exact lookupA_eraseA_self s.podMaps pod.uid
  · exact not_mem_eraseSet_self s.releasedPodMap pod.uid
  · simp [dealerForget, eraseA_idem, eraseSet_idem]

/-- Claim C10: `Allocate` on a pod with empty `Spec.NodeName` fails with
an error before any lookup or commit, leaving the dealer state
untouched. -/
theorem allocate_empty_nodename_errors (env : Cluster) (s : DealerState) (pod : Pod)
    (h : pod.nodeName = "") :
    dealerAllocate env s pod = (some "pod nodename is empty", s) := by
  simp [dealerAllocate, h]

theorem allocate_empty_nodename_errors_witness :
    (⟨"u", "default", "p", "", [], none⟩ : Pod).nodeName = "" ∧
    dealerAllocate ⟨[], []⟩ initialState ⟨"u", "default", "p", "", [], none⟩ =
      (some "pod nodename is empty", initialState) :=
  ⟨rfl, allocate_empty_nodename_errors _ _ _ rfl⟩

/-- Claim C1 (code bug witness): when the first pod-annotation update
fails with a non-conflict error, `Bind` returns nil — it swallows the
error and reports success without recording the pod — instead of
surfacing the error as the spec requires. -/
theorem bind_swallows_nonconflict_update_error :
    apiSwallow.update 0 = some "etcd write failed" ∧
    "etcd write failed" ≠ OptimisticLockErrorMsg ∧
    (dealerBind envEx apiSwallow initialState "n1" podEx1 .binpack false).1 = none ∧
    lookupA (dealerBind envEx apiSwallow initialState "n1" podEx1 .binpack false).2.podMaps
      "u1" = none := by
  refine ⟨rfl, by decide, by decide, by decide⟩

/-- Claim C3 (code bug witness): from the empty initial state, the
operation sequence Allocate; Release; Allocate on the same pod leaves its
UID in both `PodMaps` and `ReleasedPodMap` — `Allocate` never consults
the released-pod tombstone — so the disjointness invariant is violated in
a reachable state. -/
theorem release_then_allocate_breaks_disjointness :
    (lookupA (runOps envEx initialState
        [.allocateOp podEx1, .releaseOp podEx1, .allocateOp podEx1]).podMaps
      "u1").isSome = true ∧
    "u1" ∈ (runOps envEx initialState
        [.allocateOp podEx1, .releaseOp podEx1, .allocateOp podEx1]).releasedPodMap := by
  refine ⟨by decide, by decide⟩

/-- Claim C4 (counterexample): `Release` of a pod whose UID is absent
from `PodMaps` is not always a nil no-op — when the pod's node cannot be
resolved, `Release` returns the node-lookup error. -/
theorem release_absent_uid_can_error :
    lookupA initialState.podMaps "u2" = none ∧
    (dealerRelease ⟨[], []⟩ initialState
      ⟨"u2", "default", "p2", "nowhere", [], none⟩).1.isSome = true := by
  refine ⟨rfl, by decide⟩

/-- Claim C4 (amended): for a pod whose UID is not in `PodMaps` and whose
node is already cached in `NodeMaps`, `Release` returns nil and leaves
the dealer state (all GPU counters, `PodMaps`, `ReleasedPodMap`)
unchanged. -/
theorem release_absent_uid_known_node_noop (env : Cluster) (s : DealerState) (pod : Pod)
    (ni : NodeInfo) (h1 : lookupA s.nodeMaps pod.nodeName = some ni)
    (h2 : lookupA s.podMaps pod.uid = none) :
    dealerRelease env s pod = (none, s) := by
  simp [dealerRelease, getNodeInfo, h1, h2]

theorem release_absent_uid_known_node_noop_witness :
    lookupA (⟨[], [("n1", ⟨"n1", [⟨100, 16384, 0, 0⟩], none⟩)], []⟩ :
        DealerState).nodeMaps "n1" = some ⟨"n1", [⟨100, 16384, 0, 0⟩], none⟩ ∧
    lookupA (⟨[], [("n1", ⟨"n1", [⟨100, 16384, 0, 0⟩], none⟩)], []⟩ :
        DealerState).podMaps "u2" = none ∧
    dealerRelease ⟨[], []⟩ ⟨[], [("n1", ⟨"n1", [⟨100, 16384, 0, 0⟩], none⟩)], []⟩
        ⟨"u2", "default", "p2", "n1", [], none⟩ =
      (none, ⟨[], [("n1", ⟨"n1", [⟨100, 16384, 0, 0⟩], none⟩)], []⟩) :=
  ⟨rfl, rfl, release_absent_uid_known_node_noop _ _ _ ⟨"n1", [⟨100, 16384, 0, 0⟩], none⟩ rfl rfl⟩

/-- Claim C5 (counterexample): `Allocate` on a pod whose UID is already
in `PodMaps` does not always return nil — the empty-node-name check runs
first and returns an error. -/
theorem allocate_known_uid_can_error :
    lookupA (⟨[("u3", ⟨"u3", "default", "p3", "", [], none⟩)], [], []⟩ :
        DealerState).podMaps "u3" =
      some ⟨"u3", "default", "p3", "", [], none⟩ ∧
    (dealerAllocate ⟨[], []⟩ ⟨[("u3", ⟨"u3", "default", "p3", "", [], none⟩)], [], []⟩
      ⟨"u3", "default", "p3", "", [], none⟩).1.isSome = true := by
  refine ⟨rfl, by decide⟩

/-- A nil-returning `Allocate` leaves a state on which a repeated
`Allocate` of the same pod is a nil no-op. -/
theorem allocate_nil_second_noop (env : Cluster) (s : DealerState) (pod : Pod)
    (h : (dealerAllocate env s pod).1 = none) :
    dealerAllocate env (dealerAllocate env s pod).2 pod =
      (none, (dealerAllocate env s pod).2) := by
  by_cases hempty : pod.nodeName = ""
  · simp [dealerAllocate, hempty] at h
  · rcases hgn : getNodeInfo env s pod.nodeName with ⟨r, s1⟩
    rcases r with e | ni1
    · simp [dealerAllocate, hempty, hgn] at h
    · have hlk := getNodeInfo_ok_lookup env s pod.nodeName ni1 s1 hgn
      rcases hpm : lookupA s1.podMaps pod.uid with _ | q1
      · rcases hplan : newPlanFromPod pod with e | plan
        · simp [dealerAllocate, hempty, hgn, hpm, hplan] at h
        · rcases halloc : nodeAllocate ni1 plan with _ | ni2
          · simp [dealerAllocate, hempty, hgn, hpm, hplan, halloc] at h
          · have hres : dealerAllocate env s pod =
                (none, { s1 with nodeMaps := insertA s1.nodeMaps pod.nodeName ni2,
                                 podMaps := insertA s1.podMaps pod.uid pod }) := by
              simp [dealerAllocate, hempty, hgn, hpm, hplan, halloc]
            rw [hres]
            simp [dealerAllocate, hempty, getNodeInfo, lookupA_insertA_self]
      · have hres : dealerAllocate env s pod = (none, s1) := by
          simp [dealerAllocate, hempty, hgn, hpm]
        rw [hres]
        simp [dealerAllocate, hempty, getNodeInfo, hlk, hpm]

/-- Claim C5 (amended): `Allocate` is idempotent on pod UID once the
pod's node name is non-empty and its node is cached: a pod already in
`PodMaps` makes `Allocate` a nil no-op, and running `Allocate` again
after any nil-returning `Allocate` changes nothing. -/
theorem allocate_idempotent_on_uid (env : Cluster) (s : DealerState) (pod : Pod)
    (ni : NodeInfo) (q : Pod) :
    (lookupA s.podMaps pod.uid = some q → pod.nodeName ≠ "" →
      lookupA s.nodeMaps pod.nodeName = some ni → dealerAllocate env s pod = (none, s)) ∧
    ((dealerAllocate env s pod).1 = none →
      dealerAllocate env (dealerAllocate env s pod).2 pod =
        (none, (dealerAllocate env s pod).2)) := by
  constructor
  · intro h1 h2 h3
    simp [dealerAllocate, h2, getNodeInfo, h3, h1]
  · exact allocate_nil_second_noop env s pod

theorem cleanPlan_of_none (ni : NodeInfo) (h : ni.tentative = none) :
    cleanPlan ni = ni := by
  rw [cleanPlan, h]

theorem zip_getElem_some {α β : Type} (l1 : List α) (l2 : List β) (i : Nat) (a : α) (b : β)
    (h1 : l1[i]? = some a) (h2 : l2[i]? = some b) : (l1.zip l2)[i]? = some (a, b) := by
  induction l1 generalizing l2 i with
  | nil => simp at h1
  | cons x xs ih =>
    cases l2 with
    | nil => simp at h2
    | cons y ys =>
      cases i with
      | zero =>
        rw [List.getElem?_cons_zero, Option.some.injEq] at h1 h2
        simp [List.zip_cons_cons, h1, h2]
      | succ j =>
        rw [List.getElem?_cons_succ] at h1 h2
        rw [List.zip_cons_cons, List.getElem?_cons_succ]
        exact ih ys j h1 h2

theorem getNodeInfo_preserves_entry (env : Cluster) (s : DealerState) (m n : String)
    (ni : NodeInfo) (h : lookupA s.nodeMaps n = some ni) :
    lookupA ((getNodeInfo env s m).2).nodeMaps n = some ni := by
  rw [getNodeInfo]
  rcases hm : lookupA s.nodeMaps m with _ | ni0
  · rcases hcaps : lookupA env.nodes m with _ | caps
    · simpa using h
    · rcases hpods : lookupA env.podsOn m with _ | pods
      · simpa using h
      · have hmn : m ≠ n := by
          intro he
          rw [he, h] at hm
          exact Option.noConfusion hm
        simpa [lookupA_insertA_ne _ _ _ _ hmn] using h
  · simpa using h

theorem resolveNodes_preserves_entry (env : Cluster) (s : DealerState) (ns : List String)
    (n : String) (ni : NodeInfo) (h : lookupA s.nodeMaps n = some ni) :
    lookupA ((resolveNodes env s ns).2).nodeMaps n = some ni := by
  induction ns generalizing s with
  | nil => simpa [resolveNodes] using h
  | cons hd tl ih =>
    rw [resolveNodes]
    have hpres := getNodeInfo_preserves_entry env s hd n ni h
    rcases hgn : getNodeInfo env s hd with ⟨r, s1⟩
    rw [hgn] at hpres
    rcases r with e | ni0
    · simpa using ih s1 hpres
    · simpa using ih s1 hpres

theorem resolveNodes_length (env : Cluster) (s : DealerState) (ns : List String) :
    ((resolveNodes env s ns).1).length = ns.length := by
  induction ns generalizing s with
  | nil => simp [resolveNodes]
  | cons hd tl ih =>
    rw [resolveNodes]
    rcases hgn : getNodeInfo env s hd with ⟨r, s1⟩
    rcases r with e | ni0
    · simpa using ih s1
    · simpa using ih s1

theorem resolveNodes_flag_of_cached (env : Cluster) (s : DealerState) (ns : List String)
    (i : Nat) (n : String) (ni : NodeInfo)
    (hn : ns[i]? = some n) (h : lookupA s.nodeMaps n = some ni) :
    ((resolveNodes env s ns).1)[i]? = some (true, none) := by
  induction ns generalizing s i with
  | nil => simp at hn
  | cons hd tl ih =>
    rcases i with _ | j
    · rw [List.getElem?_cons_zero, Option.some.injEq] at hn
      subst hn
      rw [resolveNodes, getNodeInfo]
      rw [h]
      simp
    · rw [List.getElem?_cons_succ] at hn
      rw [resolveNodes]
      have hpres := getNodeInfo_preserves_entry env s hd n ni h
      rcases hgn : getNodeInfo env s hd with ⟨r, s1⟩
      rw [hgn] at hpres
      rcases r with e | ni0
      · simpa using ih s1 j hn hpres
      · simpa using ih s1 j hn hpres

theorem assumeNodes_length (d : Demand) (pol : PolicySpec) (la : Bool) (s : DealerState)
    (pairs : List (String × Bool × Option String)) :
    ((assumeNodes d pol la s pairs).1).length = pairs.length := by
  induction pairs generalizing s with
  | nil => simp [assumeNodes]
  | cons hd tl ih =>
    rcases hd with ⟨m, ok, e⟩
    rcases ok with _ | _
    · simpa [assumeNodes] using ih s
    · rcases hl : lookupA s.nodeMaps m with _ | ni0
      · simpa [assumeNodes, hl] using ih s
      · rcases ha : nodeAssume pol la d (cleanPlan ni0) with msg | ni2
        · simpa [assumeNodes, hl, ha] using ih _
        · simpa [assumeNodes, hl, ha] using ih _

theorem assumeNodes_preserves_entry (d : Demand) (pol : PolicySpec) (la : Bool)
    (s : DealerState) (pairs : List (String × Bool × Option String)) (n : String)
    (ni : NodeInfo) (hnot : ∀ p ∈ pairs, p.1 ≠ n)
    (h : lookupA s.nodeMaps n = some ni) :
    lookupA ((assumeNodes d pol la s pairs).2).nodeMaps n = some ni := by
  induction pairs generalizing s with
  | nil => simpa [assumeNodes] using h
  | cons hd tl ih =>
    rcases hd with ⟨m, ok, e⟩
    have hm : m ≠ n := hnot (m, ok, e) (List.mem_cons_self _ _)
    have htl : ∀ p ∈ tl, p.1 ≠ n := fun p hp => hnot p (List.mem_cons_of_mem _ hp)
    rcases ok with _ | _
    · simpa [assumeNodes] using ih s htl h
    · rcases hl : lookupA s.nodeMaps m with _ | ni0
      · simpa [assumeNodes, hl] using ih s htl h
      · rcases ha : nodeAssume pol la d (cleanPlan ni0) with msg | ni2
        · have h2 : lookupA (insertA s.nodeMaps m (cleanPlan ni0)) n = some ni := by
            rwa [lookupA_insertA_ne _ _ _ _ hm]
          simpa [assumeNodes, hl, ha] using ih _ htl h2
        · have h2 : lookupA (insertA s.nodeMaps m ni2) n = some ni := by
            rwa [lookupA_insertA_ne _ _ _ _ hm]
          simpa [assumeNodes, hl, ha] using ih _ htl h2

theorem assumeNodes_false_entry (d : Demand) (pol : PolicySpec) (la : Bool)
    (s : DealerState) (pairs : List (String × Bool × Option String)) (i : Nat)
    (n : String) (eo : Option String) (ni : NodeInfo)
    (hnd : (pairs.map (fun p => p.1)).Nodup)
    (hp : pairs[i]? = some (n, true, eo))
    (h : lookupA s.nodeMaps n = some ni) (ht : ni.tentative = none)
    (hans : (((assumeNodes d pol la s pairs).1).map Prod.fst)[i]? = some false) :
    lookupA ((assumeNodes d pol la s pairs).2).nodeMaps n = some ni := by
  induction pairs generalizing s i with
  | nil => simp at hp
  | cons hd tl ih =>
    rcases hd with ⟨m, ok, e⟩
    rw [List.map_cons, List.nodup_cons] at hnd
    rcases i with _ | j
    · simp only [List.getElem?_cons_zero, Option.some.injEq, Prod.mk.injEq] at hp
      obtain ⟨hp1, hp2, hp3⟩ := hp
      subst hp1; subst hp2; subst hp3
      rcases ha : nodeAssume pol la d ni with msg | ni2
      · have hnot : ∀ p ∈ tl, p.1 ≠ m := by
          intro p hpmem he
          exact hnd.1 (he ▸ List.mem_map_of_mem (fun q => q.1) hpmem)
        have h2 : lookupA (insertA s.nodeMaps m ni) m = some ni :=
          lookupA_insertA_self _ _ _
        simpa [assumeNodes, h, cleanPlan_of_none ni ht, ha] using
          assumeNodes_preserves_entry d pol la
            { s with nodeMaps := insertA s.nodeMaps m ni } tl m ni hnot h2
      · exfalso
        simp [assumeNodes, h, cleanPlan_of_none ni ht, ha] at hans
    · rw [List.getElem?_cons_succ] at hp
      have hmem : n ∈ tl.map (fun p => p.1) := by
        have hin : (n, true, eo) ∈ tl := List.getElem?_mem hp
        exact List.mem_map_of_mem (fun q => q.1) hin
      have hm : m ≠ n := fun he => hnd.1 (he ▸ hmem)
      rcases ok with _ | _
      · simp only [assumeNodes, Bool.false_eq_true, if_false, List.map_cons,
          List.getElem?_cons_succ] at hans ⊢
        exact ih _ j hnd.2 hp h hans
      · rcases hl : lookupA s.nodeMaps m with _ | ni0
        · simp only [assumeNodes, if_true, hl, List.map_cons,
            List.getElem?_cons_succ] at hans ⊢
          exact ih _ j hnd.2 hp h hans
        · rcases ha : nodeAssume pol la d (cleanPlan ni0) with msg | ni2
          · have h2 : lookupA (insertA s.nodeMaps m (cleanPlan ni0)) n = some ni := by
              rwa [lookupA_insertA_ne _ _ _ _ hm]
            simp only [assumeNodes, if_true, hl, ha, List.map_cons,
              List.getElem?_cons_succ] at hans ⊢
            exact ih _ j hnd.2 hp h2 hans
          · have h2 : lookupA (insertA s.nodeMaps m ni2) n = some ni := by
              rwa [lookupA_insertA_ne _ _ _ _ hm]
            simp only [assumeNodes, if_true, hl, ha, List.map_cons,
              List.getElem?_cons_succ] at hans ⊢
            exact ih _ j hnd.2 hp h2 hans

/-- Claim C2: when `Assume` reports false for a node that was at rest
(cached, no pending tentative plan), that node's entry — in particular
every GPU's committed core and memory totals — is unchanged from before
the call: the tentative commits made for earlier containers of the same
pod are all rolled back before failure is reported. -/
theorem assume_false_leaves_node_unchanged (env : Cluster) (s : DealerState)
    (nodes : List String) (pod : Pod) (pol : PolicySpec) (la : Bool)
    (i : Nat) (n : String) (ni : NodeInfo)
    (hnd : nodes.Nodup)
    (hn : nodes[i]? = some n)
    (hni : lookupA s.nodeMaps n = some ni)
    (ht : ni.tentative = none)
    (hans : ((dealerAssume env s nodes pod pol la).ans)[i]? = some false) :
    lookupA ((dealerAssume env s nodes pod pol la).state).nodeMaps n = some ni := by
  rw [dealerAssume] at hans ⊢
  simp only at hans ⊢
  have hflagslen : ((resolveNodes env s nodes).1).length = nodes.length :=
    resolveNodes_length env s nodes
  have hpres : lookupA ((resolveNodes env s nodes).2).nodeMaps n = some ni :=
    resolveNodes_preserves_entry env s nodes n ni hni
  have hflag : ((resolveNodes env s nodes).1)[i]? = some (true, none) :=
    resolveNodes_flag_of_cached env s nodes i n ni hn hni
  have hpair : (nodes.zip (resolveNodes env s nodes).1)[i]? = some (n, true, none) :=
    zip_getElem_some nodes _ i n (true, none) hn hflag
  have hmapfst : (nodes.zip (resolveNodes env s nodes).1).map (fun p => p.1) = nodes := by
    have := List.map_fst_zip nodes ((resolveNodes env s nodes).1) (le_of_eq hflagslen.symm)
    simpa [Prod.fst] using this
  have hnd2 : ((nodes.zip (resolveNodes env s nodes).1).map (fun p => p.1)).Nodup := by
    rw [hmapfst]; exact hnd
  exact assumeNodes_false_entry (newDemandFromPod pod) pol la _ _ i n none ni hnd2 hpair
    hpres ht hans

theorem assume_false_leaves_node_unchanged_witness :
    (["n1"] : List String).Nodup ∧
    lookupA (⟨[], [("n1", ⟨"n1", [⟨100, 16384, 0, 0⟩], none⟩)], []⟩ :
        DealerState).nodeMaps "n1" = some ⟨"n1", [⟨100, 16384, 0, 0⟩], none⟩ ∧
    ((dealerAssume envEx ⟨[], [("n1", ⟨"n1", [⟨100, 16384, 0, 0⟩], none⟩)], []⟩ ["n1"]
        ⟨"u9", "default", "p9", "n1", [⟨90, 999999⟩], none⟩ .binpack false).ans)[0]? =
      some false ∧
    lookupA ((dealerAssume envEx ⟨[], [("n1", ⟨"n1", [⟨100, 16384, 0, 0⟩], none⟩)], []⟩
        ["n1"] ⟨"u9", "default", "p9", "n1", [⟨90, 999999⟩], none⟩ .binpack
        false).state).nodeMaps "n1" = some ⟨"n1", [⟨100, 16384, 0, 0⟩], none⟩ := by
  refine ⟨by decide, rfl, by decide, ?_⟩
  exact assume_false_leaves_node_unchanged envEx _ ["n1"]
    ⟨"u9", "default", "p9", "n1", [⟨90, 999999⟩], none⟩ .binpack false 0 "n1"
    ⟨"n1", [⟨100, 16384, 0, 0⟩], none⟩ (by decide) rfl rfl rfl (by decide)

/-- Claim C9: on an optimistic-concurrency conflict on the first pod
update, `Bind` re-fetches the pod and retries the update exactly once: a
successful retry proceeds to issue the Binding and `Bind` succeeds; a
failed retry returns its error; and no update call beyond the second is
ever consulted (the result only depends on the first two update
outcomes). -/
theorem bind_conflict_retries_once (env : Cluster) (api : ApiBehavior) (s : DealerState)
    (node : String) (pod : Pod) (pol : PolicySpec) (la : Bool)
    (ni : NodeInfo) (s1 : DealerState) (caps : List (Int × Int)) (plan : Plan) (ni2 : NodeInfo)
    (hni : getNodeInfo env s node = (Except.ok ni, s1))
    (hcaps : lookupA env.nodes ni.name = some caps)
    (hplan : nodeBind pol la (newDemandFromPod pod) ni = Except.ok (plan, ni2))
    (hconf : api.update 0 = some OptimisticLockErrorMsg) :
    (∀ pod2, api.getResult = Except.ok pod2 → api.update 1 = none → api.bindResult = none →
      (dealerBind env api s node pod pol la).1 = none) ∧
    (∀ pod2 e, api.getResult = Except.ok pod2 → api.update 1 = some e →
      (dealerBind env api s node pod pol la).1 = some e) ∧
    (∀ api2 : ApiBehavior, api2.update 0 = api.update 0 → api2.update 1 = api.update 1 →
      api2.getResult = api.getResult → api2.bindResult = api.bindResult →
      dealerBind env api2 s node pod pol la = dealerBind env api s node pod pol la) := by
  refine ⟨?_, ?_, ?_⟩
  · intro pod2 hg h1 hb
    simp [dealerBind, hni, hcaps, hplan, hconf, hg, h1, hb]
  · intro pod2 e hg h1
    simp [dealerBind, hni, hcaps, hplan, hconf, hg, h1]
  · intro api2 h0 h1 hg hb
    simp only [dealerBind, hni, hcaps, hplan, h0, h1, hg, hb]

theorem bind_conflict_retries_once_witness :
    (⟨fun k => if k = 0 then some OptimisticLockErrorMsg else none,
        Except.ok podEx1, none⟩ : ApiBehavior).update 0 = some OptimisticLockErrorMsg ∧
    (⟨fun k => if k = 0 then some OptimisticLockErrorMsg else none,
        Except.ok podEx1, none⟩ : ApiBehavior).update 1 = none ∧
    (dealerBind envEx
      ⟨fun k => if k = 0 then some OptimisticLockErrorMsg else none, Except.ok podEx1, none⟩
      ⟨[], [("n1", ⟨"n1", [⟨100, 16384, 0, 0⟩], none⟩)], []⟩ "n1" podEx1 .binpack false).1 =
      none := by
  refine ⟨rfl, rfl, ?_⟩
  exact (bind_conflict_retries_once envEx
    ⟨fun k => if k = 0 then some OptimisticLockErrorMsg else none, Except.ok podEx1, none⟩
    ⟨[], [("n1", ⟨"n1", [⟨100, 16384, 0, 0⟩], none⟩)], []⟩ "n1" podEx1 .binpack false
    ⟨"n1", [⟨100, 16384, 0, 0⟩], none⟩
    ⟨[], [("n1", ⟨"n1", [⟨100, 16384, 0, 0⟩], none⟩)], []⟩
    [(100, 16384)] ⟨[0], [⟨30, 4096⟩]⟩ ⟨"n1", [⟨100, 16384, 30, 4096⟩], none⟩
    rfl rfl rfl rfl).1 podEx1 rfl rfl rfl

theorem getNodeInfo_absent_preserved (env : Cluster) (s : DealerState) (m n : String)
    (h1 : lookupA s.nodeMaps n = none) (h2 : lookupA env.nodes n = none) :
    lookupA ((getNodeInfo env s m).2).nodeMaps n = none := by
  rw [getNodeInfo]
  rcases hm : lookupA s.nodeMaps m with _ | ni0
  · rcases hcaps : lookupA env.nodes m with _ | caps
    · simpa using h1
    · rcases hpods : lookupA env.podsOn m with _ | pods
      · simpa using h1
      · have hmn : m ≠ n := by
          intro he
          rw [he, h2] at hcaps
          exact Option.noConfusion hcaps
        simpa [lookupA_insertA_ne _ _ _ _ hmn] using h1
  · simpa using h1

theorem getNodeInfo_absent_fails (env : Cluster) (s : DealerState) (n : String)
    (h1 : lookupA s.nodeMaps n = none) (h2 : lookupA env.nodes n = none) :
    getNodeInfo env s n = (Except.error "node not found", s) := by
  simp [getNodeInfo, h1, h2]

theorem dealerScore_length (env : Cluster) (s : DealerState) (nodes : List String)
    (pod : Pod) (pol : PolicySpec) (la : Bool) :
    (dealerScore env s nodes pod pol la).1.length = nodes.length := by
  induction nodes generalizing s with
  | nil => simp [dealerScore]
  | cons hd tl ih =>
    rw [dealerScore]
    rcases hgn : getNodeInfo env s hd with ⟨r, s1⟩
    rcases r with e | ni
    · simpa using ih s1
    · simpa using ih s1

theorem dealerScore_min_of_unresolvable (env : Cluster) (s : DealerState)
    (nodes : List String) (pod : Pod) (pol : PolicySpec) (la : Bool) (i : Nat) (n : String)
    (hn : nodes[i]? = some n) (h1 : lookupA s.nodeMaps n = none)
    (h2 : lookupA env.nodes n = none) :
    ((dealerScore env s nodes pod pol la).1)[i]? = some ScoreMin := by
  induction nodes generalizing s i with
  | nil => simp at hn
  | cons hd tl ih =>
    rcases i with _ | j
    · rw [List.getElem?_cons_zero, Option.some.injEq] at hn
      subst hn
      rw [dealerScore, getNodeInfo_absent_fails env s hd h1 h2]
      simp
    · rw [List.getElem?_cons_succ] at hn
      rw [dealerScore]
      rcases hgn : getNodeInfo env s hd with ⟨r, s1⟩
      have hpres : lookupA s1.nodeMaps n = none := by
        have := getNodeInfo_absent_preserved env s hd n h1 h2
        rwa [hgn] at this
      rcases r with e | ni
      · simpa using ih s1 j hn hpres
      · simpa using ih s1 j hn hpres

/-- Claim C7: `Score` returns one score per candidate node, and any
index whose node name resolves to no `NodeInfo` (absent from both the
cache and the cluster) scores `ScoreMin`. -/
theorem score_length_and_min_on_lookup_failure (env : Cluster) (s : DealerState)
    (nodes : List String) (pod : Pod) (pol : PolicySpec) (la : Bool) :
    (dealerScore env s nodes pod pol la).1.length = nodes.length ∧
    (∀ (i : Nat) (n : String), nodes[i]? = some n → lookupA s.nodeMaps n = none →
      lookupA env.nodes n = none →
      ((dealerScore env s nodes pod pol la).1)[i]? = some ScoreMin) :=
  ⟨dealerScore_length env s nodes pod pol la,
   fun i n hn h1 h2 => dealerScore_min_of_unresolvable env s nodes pod pol la i n hn h1 h2⟩

theorem score_length_and_min_on_lookup_failure_witness :
    (["nx"] : List String)[0]? = some "nx" ∧
    lookupA initialState.nodeMaps "nx" = none ∧
    lookupA envEx.nodes "nx" = none ∧
    ((dealerScore envEx initialState ["nx"] podEx1 .binpack false).1)[0]? =
      some ScoreMin :=
  ⟨rfl, rfl, by decide,
   (score_length_and_min_on_lookup_failure envEx initialState ["nx"] podEx1 .binpack
      false).2 0 "nx" rfl rfl (by decide)⟩

theorem allocate_idempotent_on_uid_witness :
    (lookupA (⟨[("u1", podEx1)], [("n1", ⟨"n1", [⟨100, 16384, 30, 4096⟩], none⟩)], []⟩ :
        DealerState).podMaps "u1" = some podEx1 ∧
      podEx1.nodeName ≠ "" ∧
      dealerAllocate envEx
        ⟨[("u1", podEx1)], [("n1", ⟨"n1", [⟨100, 16384, 30, 4096⟩], none⟩)], []⟩ podEx1 =
        (none, ⟨[("u1", podEx1)], [("n1", ⟨"n1", [⟨100, 16384, 30, 4096⟩], none⟩)], []⟩)) ∧
    dealerAllocate envEx
        (dealerAllocate envEx initialState podEx1).2 podEx1 =
      (none, (dealerAllocate envEx initialState podEx1).2) := by
  constructor
  · refine ⟨rfl, by decide, ?_⟩
    exact (allocate_idempotent_on_uid envEx _ podEx1
      ⟨"n1", [⟨100, 16384, 30, 4096⟩], none⟩ podEx1).1 rfl (by decide) rfl
  · exact (allocate_idempotent_on_uid envEx initialState podEx1
      ⟨"n1", [⟨100, 16384, 30, 4096⟩], none⟩ podEx1).2 (by decide)

/-! ### Filter handler lemmas (claim C8) -/

theorem insertA_eq_append_of_not_mem {α : Type} (l : List (String × α)) (k : String) (v : α)
    (h : k ∉ l.map Prod.fst) : insertA l k v = l ++ [(k, v)] := by
  induction l with
  | nil => simp [insertA]
  | cons hd tl ih =>
    rw [List.map_cons, List.mem_cons] at h
    push_neg at h
    rcases hd with ⟨k0, v0⟩
    rw [insertA, if_neg (fun he => h.1 he.symm), List.cons_append, ih h.2]

theorem zipNamesEq {β : Type} (l1 : List String) (l2 : List β)
    (h : l1.length ≤ l2.length) : (l1.zip l2).map (fun p => p.1) = l1 := by
  induction l1 generalizing l2 with
  | nil => simp
  | cons x xs ih =>
    cases l2 with
    | nil => simp at h
    | cons y ys =>
      rw [List.length_cons, List.length_cons, Nat.succ_le_succ_iff] at h
      rw [List.zip_cons_cons, List.map_cons, ih ys h]

theorem buildFilter_fst (l : List (String × Bool × Option String)) :
    ∀ acc1 acc2, (buildFilter acc1 acc2 l).1 = acc1 ++ passingOf l := by
  induction l with
  | nil => intro acc1 acc2; simp [buildFilter, passingOf]
  | cons hd tl ih =>
    intro acc1 acc2
    rcases hd with ⟨n, ok, e⟩
    rcases ok with _ | _
    · simp [buildFilter, passingOf, List.filterMap_cons, ih]
    · simp [buildFilter, passingOf, List.filterMap_cons, ih]

theorem buildFilter_snd (l : List (String × Bool × Option String)) :
    ∀ acc1 acc2, (l.map (fun p => p.1)).Nodup →
    (∀ x ∈ acc2.map Prod.fst, x ∉ l.map (fun p => p.1)) →
    (buildFilter acc1 acc2 l).2 = acc2 ++ failingOf l := by
  induction l with
  | nil => intro acc1 acc2 _ _; simp [buildFilter, failingOf]
  | cons hd tl ih =>
    intro acc1 acc2 hnd hdisj
    rcases hd with ⟨n, ok, e⟩
    rw [List.map_cons, List.nodup_cons] at hnd
    rcases ok with _ | _
    · have hnacc : n ∉ acc2.map Prod.fst := by
        intro hmem
        exact hdisj n hmem (List.mem_cons_self _ _)
      have hdisj2 : ∀ x ∈ (acc2 ++ [(n, e.getD "")]).map Prod.fst,
          x ∉ tl.map (fun p => p.1) := by
        intro x hx
        rw [List.map_append, List.mem_append] at hx
        rcases hx with hx | hx
        · intro hmem
          exact hdisj x hx (List.mem_cons_of_mem _ hmem)
        · simp only [List.map_cons, List.map_nil, List.mem_singleton] at hx
          subst hx
          exact hnd.1
      have hstep : buildFilter acc1 (insertA acc2 n (e.getD "")) tl =
          buildFilter acc1 (acc2 ++ [(n, e.getD "")]) tl := by
        rw [insertA_eq_append_of_not_mem _ _ _ hnacc]
      simp only [buildFilter, Bool.false_eq_true, if_false]
      rw [hstep, ih acc1 _ hnd.2 hdisj2]
      simp [failingOf, List.filterMap_cons, List.append_assoc]
    · have hdisj2 : ∀ x ∈ acc2.map Prod.fst, x ∉ tl.map (fun p => p.1) := by
        intro x hx hmem
        exact hdisj x hx (List.mem_cons_of_mem _ hmem)
      simp only [buildFilter, if_true]
      rw [ih (acc1 ++ [n]) acc2 hnd.2 hdisj2]
      simp [failingOf, List.filterMap_cons]

theorem passing_failing_count (l : List (String × Bool × Option String)) (x : String) :
    (passingOf l).count x + ((failingOf l).map Prod.fst).count x =
      (l.map (fun p => p.1)).count x := by
  induction l with
  | nil => simp [passingOf, failingOf]
  | cons hd tl ih =>
    rcases hd with ⟨n, ok, e⟩
    rcases ok with _ | _
    · by_cases hx : n = x
      · simp only [passingOf, failingOf, List.filterMap_cons, Bool.false_eq_true, if_false,
          List.map_cons, List.count_cons, hx, if_pos rfl] at ih ⊢
        omega
      · simp only [passingOf, failingOf, List.filterMap_cons, Bool.false_eq_true, if_false,
          List.map_cons, List.count_cons] at ih ⊢
        simp [hx]
        omega
    · by_cases hx : n = x
      · simp only [passingOf, failingOf, List.filterMap_cons, if_true,
          List.map_cons, List.count_cons, hx, if_pos rfl] at ih ⊢
        omega
      · simp only [passingOf, failingOf, List.filterMap_cons, if_true,
          List.map_cons, List.count_cons] at ih ⊢
        simp [hx]
        omega

theorem passingOf_sublist (l : List (String × Bool × Option String)) :
    (passingOf l).Sublist (l.map (fun p => p.1)) := by
  induction l with
  | nil => simp [passingOf]
  | cons hd tl ih =>
    rcases hd with ⟨n, ok, e⟩
    rcases ok with _ | _
    · simpa [passingOf, List.filterMap_cons] using ih.cons n
    · simpa [passingOf, List.filterMap_cons] using ih.cons₂ n

theorem failingOf_mem (l : List (String × Bool × Option String)) (nm : String × String)
    (h : nm ∈ failingOf l) : ∃ e : Option String,
      (nm.1, false, e) ∈ l ∧ nm.2 = e.getD "" := by
  induction l with
  | nil => simp [failingOf] at h
  | cons hd tl ih =>
    rcases hd with ⟨n, ok, e0⟩
    rcases ok with _ | _
    · rw [failingOf, List.filterMap_cons] at h
      simp only [Bool.false_eq_true, if_false] at h
      rw [List.mem_cons] at h
      rcases h with h | h
      · subst h
        exact ⟨e0, List.mem_cons_self _ _, rfl⟩
      · obtain ⟨e, he, hv⟩ := ih h
        exact ⟨e, List.mem_cons_of_mem _ he, hv⟩
    · rw [failingOf, List.filterMap_cons] at h
      simp only [if_true] at h
      obtain ⟨e, he, hv⟩ := ih h
      exact ⟨e, List.mem_cons_of_mem _ he, hv⟩

theorem passingOf_mem (l : List (String × Bool × Option String)) (x : String)
    (h : x ∈ passingOf l) : ∃ e : Option String, (x, true, e) ∈ l := by
  induction l with
  | nil => simp [passingOf] at h
  | cons hd tl ih =>
    rcases hd with ⟨n, ok, e0⟩
    rcases ok with _ | _
    · rw [passingOf, List.filterMap_cons] at h
      simp only [Bool.false_eq_true, if_false] at h
      obtain ⟨e, he⟩ := ih h
      exact ⟨e, List.mem_cons_of_mem _ he⟩
    · rw [passingOf, List.filterMap_cons] at h
      simp only [if_true] at h
      rw [List.mem_cons] at h
      rcases h with h | h
      · subst h
        exact ⟨e0, List.mem_cons_self _ _⟩
      · obtain ⟨e, he⟩ := ih h
        exact ⟨e, List.mem_cons_of_mem _ he⟩

theorem dealerAssume_lengths (env : Cluster) (s : DealerState) (nodes : List String)
    (pod : Pod) (pol : PolicySpec) (la : Bool) :
    (dealerAssume env s nodes pod pol la).ans.length = nodes.length ∧
    (dealerAssume env s nodes pod pol la).errs.length = nodes.length := by
  rw [dealerAssume]
  constructor <;>
  · simp only [List.length_map]
    rw [assumeNodes_length, List.length_zip, resolveNodes_length]
    simp

/-- Claim C8: with distinct candidate names, the filter handler
partitions them — every candidate lands exactly once in either the
passing list (in input order, exactly the nodes `Assume` admitted) or the
failed map (labelled with the per-node error reason) — and the global
`Error` field is always empty. -/
theorem filter_handler_partitions (env : Cluster) (s : DealerState) (pod : Pod)
    (ns : List String) (pol : PolicySpec) (la : Bool) (hnd : ns.Nodup) :
    (predicateHandler env s pod ns pol la).1.error = "" ∧
    (∀ x : String,
      ((predicateHandler env s pod ns pol la).1.nodeNames).count x +
        (((predicateHandler env s pod ns pol la).1.failedNodes).map Prod.fst).count x =
        ns.count x) ∧
    ((predicateHandler env s pod ns pol la).1.nodeNames).Sublist ns ∧
    (∀ x ∈ ns, x ∈ (predicateHandler env s pod ns pol la).1.nodeNames ↔
      x ∉ ((predicateHandler env s pod ns pol la).1.failedNodes).map Prod.fst) ∧
    (∀ nm ∈ (predicateHandler env s pod ns pol la).1.failedNodes, ∃ e : Option String,
      (nm.1, false, e) ∈ ns.zip ((dealerAssume env s ns pod pol la).ans.zip
        (dealerAssume env s ns pod pol la).errs) ∧ nm.2 = e.getD "") ∧
    (∀ x ∈ (predicateHandler env s pod ns pol la).1.nodeNames, ∃ e : Option String,
      (x, true, e) ∈ ns.zip ((dealerAssume env s ns pod pol la).ans.zip
        (dealerAssume env s ns pod pol la).errs)) := by
  have hlen := dealerAssume_lengths env s ns pod pol la
  have hzlen : ns.length ≤ ((dealerAssume env s ns pod pol la).ans.zip
      (dealerAssume env s ns pod pol la).errs).length := by
    rw [List.length_zip, hlen.1, hlen.2]
    simp
  have hnames : ((ns.zip ((dealerAssume env s ns pod pol la).ans.zip
      (dealerAssume env s ns pod pol la).errs)).map (fun p => p.1)) = ns :=
    zipNamesEq _ _ hzlen
  have hnd2 : ((ns.zip ((dealerAssume env s ns pod pol la).ans.zip
      (dealerAssume env s ns pod pol la).errs)).map (fun p => p.1)).Nodup := by
    rw [hnames]; exact hnd
  have hfst : (predicateHandler env s pod ns pol la).1.nodeNames =
      passingOf (ns.zip ((dealerAssume env s ns pod pol la).ans.zip
        (dealerAssume env s ns pod pol la).errs)) := by
    rw [predicateHandler]
    simp only
    rw [buildFilter_fst]
    simp
  have hsnd : (predicateHandler env s pod ns pol la).1.failedNodes =
      failingOf (ns.zip ((dealerAssume env s ns pod pol la).ans.zip
        (dealerAssume env s ns pod pol la).errs)) := by
    rw [predicateHandler]
    simp only
    rw [buildFilter_snd _ _ _ hnd2 (by intro x hx; simp at hx)]
    simp
  refine ⟨rfl, ?_, ?_, ?_, ?_, ?_⟩
  · intro x
    rw [hfst, hsnd]
    have := passing_failing_count (ns.zip ((dealerAssume env s ns pod pol la).ans.zip
      (dealerAssume env s ns pod pol la).errs)) x
    rwa [hnames] at this
  · rw [hfst]
    have := passingOf_sublist (ns.zip ((dealerAssume env s ns pod pol la).ans.zip
      (dealerAssume env s ns pod pol la).errs))
    rwa [hnames] at this
  · intro x hx
    have hcnt : ((predicateHandler env s pod ns pol la).1.nodeNames).count x +
        (((predicateHandler env s pod ns pol la).1.failedNodes).map Prod.fst).count x =
        ns.count x := by
      rw [hfst, hsnd]
      have := passing_failing_count (ns.zip ((dealerAssume env s ns pod pol la).ans.zip
        (dealerAssume env s ns pod pol la).errs)) x
      rwa [hnames] at this
    rw [List.count_eq_one_of_mem hnd hx] at hcnt
    constructor
    · intro hmem hmem2
      have h1 : 0 < ((predicateHandler env s pod ns pol la).1.nodeNames).count x :=
        List.count_pos_iff.mpr hmem
      have h2 : 0 <
          (((predicateHandler env s pod ns pol la).1.failedNodes).map Prod.fst).count x :=
        List.count_pos_iff.mpr hmem2
      omega
    · intro hmem2
      have h2 : (((predicateHandler env s pod ns pol la).1.failedNodes).map
          Prod.fst).count x = 0 := by
        by_contra hne
        exact hmem2 (List.count_pos_iff.mp (Nat.pos_of_ne_zero hne))
      rw [h2] at hcnt
      exact List.count_pos_iff.mp (by omega)
  · intro nm hmem
    rw [hsnd] at hmem
    exact failingOf_mem _ nm hmem
  · intro x hmem
    rw [hfst] at hmem
    exact passingOf_mem _ x hmem

theorem filter_handler_partitions_witness :
    (["n1", "nx"] : List String).Nodup ∧
    (predicateHandler envEx initialState podEx1 ["n1", "nx"] .binpack false).1.error = "" ∧
    ((predicateHandler envEx initialState podEx1 ["n1", "nx"]
      .binpack false).1.nodeNames).Sublist ["n1", "nx"] :=
  ⟨by decide,
   (filter_handler_partitions envEx initialState podEx1 ["n1", "nx"] .binpack false
     (by decide)).1,
   (filter_handler_partitions envEx initialState podEx1 ["n1", "nx"] .binpack false
     (by decide)).2.2.1⟩

end NanoGPU
